import Mathlib

/-!
# Verification of the Indian Poker game engine

Shallow embedding of the Indian Poker game engine
(`rlcard/games/indianpoker/{game,player,utils}.py`), together with theorems
checking the natural-language specification against it.

Conventions of the embedding:
* Python integers and chip amounts are modelled as rationals (`ℚ`): the pot can
  be split equally among several winners, so chip payoffs are not integral.
* Python attributes initialised to `None` are modelled as `Option` fields.
* Python exceptions are modelled by an error type `PyError`; a method that can
  both mutate the object and raise returns the mutated object together with an
  `Except` result.
* The pseudo-random source (`np_random`) is externalized: functions that draw
  cards take the already-shuffled deck as an explicit argument.
* Components of the repository whose source file is not available
  (`round.py`, `dealer.py`, `judger.py`) are modelled from the specification;
  their doc comments start with "Modelled from the spec:".
-/

/- Batteries marks the rational arithmetic operations `@[irreducible]`, which
blocks `decide` from evaluating concrete game computations; restore the
default reducibility for them (the kernel is unaffected either way). -/
attribute [local semireducible] Rat.add Rat.sub Rat.mul Rat.inv

namespace IndianPoker

/-- The six betting actions, in the order documented by
`IndianPokerGame.get_num_actions` ("call, raise_half_pot, raise_pot, all_in,
check and fold"). -/
inductive Action where
  | CALL
  | RAISE_HALF_POT
  | RAISE_POT
  | ALL_IN
  | CHECK
  | FOLD
deriving DecidableEq, Repr

/-- Player status enumeration from `player.py` (`PlayerStatus`). -/
inductive PlayerStatus where
  | ALIVE
  | FOLDED
  | ALLIN
deriving DecidableEq, Repr

/-- A card is a suit character and a rank character; `get_index` is the
canonical two-character index (suit letter then rank letter). -/
structure Card where
  suit : Char
  rank : Char
deriving DecidableEq, Repr

instance : Inhabited Card := ⟨⟨'S', 'A'⟩⟩

/-- `Card.get_index`: the two-character index, modelled as a list of the two
characters so that the rank character is `(get_index c).getD 1 _`, matching
Python's `index_string[1]`. -/
def Card.get_index (c : Card) : List Char := [c.suit, c.rank]

/-- The rank order string `RANKS = 'A23456789TJQK'` from `utils.py`, as a list
of characters. -/
def RANKS : List Char :=
  ['A', '2', '3', '4', '5', '6', '7', '8', '9', 'T', 'J', 'Q', 'K']

/-- `evaluate_hand` from `utils.py`: `-1` for a `None` hand, otherwise the
position in `RANKS` of the rank character of the first card index string
(`RANKS.index(hand[0][1])`). -/
def evaluate_hand (hand : Option (List (List Char))) : ℤ :=
  match hand with
  | none => -1
  | some h => ((RANKS.indexOf ((h.headD []).getD 1 ' ') : ℕ) : ℤ)

/-- `compare_hands` from `utils.py`: evaluate every hand and mark `1` for the
hands attaining the maximum rank, `0` otherwise.  The fold is seeded with `-1`,
the least value `evaluate_hand` can return, so on a nonempty list it equals
Python's unseeded `max(hand_rank)`. -/
def compare_hands (hands : List (Option (List (List Char)))) : List ℕ :=
  let hand_rank := hands.map evaluate_hand
  let m := hand_rank.foldl max (-1)
  hand_rank.map (fun r => if r = m then 1 else 0)

/-- `IndianPokerPlayer` from `player.py`.  The `np_random` attribute carries no
game state and is dropped. -/
structure IndianPokerPlayer where
  player_id : ℕ
  hand : List Card
  status : PlayerStatus
  in_chips : ℚ
  remained_chips : ℚ
deriving DecidableEq, Repr

instance : Inhabited IndianPokerPlayer := ⟨⟨0, [], .ALIVE, 0, 0⟩⟩

namespace IndianPokerPlayer

/-- `IndianPokerPlayer.__init__`: fresh player with an empty hand, status
`ALIVE`, no chips committed and `init_chips` in the stack. -/
def new (player_id : ℕ) (init_chips : ℚ) : IndianPokerPlayer :=
  { player_id := player_id
    hand := []
    status := .ALIVE
    in_chips := 0
    remained_chips := init_chips }

/-- `IndianPokerPlayer.bet`: commit `min(chips, remained_chips)` from the stack
into `in_chips` (written as in the source:
`chips if chips <= remained_chips else remained_chips`). -/
def bet (p : IndianPokerPlayer) (chips : ℚ) : IndianPokerPlayer :=
  let quantity := if chips ≤ p.remained_chips then chips else p.remained_chips
  { p with
    in_chips := p.in_chips + quantity
    remained_chips := p.remained_chips - quantity }

/-- `IndianPokerPlayer.update`: settle by moving `in_chips` plus the signed
payoff into `remained_chips`, zero `in_chips`, and report solvency
(`remained_chips > 0`). -/
def update (p : IndianPokerPlayer) (payoff : ℚ) : IndianPokerPlayer × Bool :=
  let r := p.remained_chips + p.in_chips + payoff
  ({ p with remained_chips := r, in_chips := 0 }, decide (0 < r))

/-- `IndianPokerPlayer.reset` body after the assertion check passed: empty the
hand and return to `ALIVE`. -/
def reset0 (p : IndianPokerPlayer) : IndianPokerPlayer :=
  { p with hand := [], in_chips := 0, status := .ALIVE }

end IndianPokerPlayer

/-- One viewer's rival-card row: `None` at the viewer's own seat, the card
index strings of the seat's hand elsewhere. -/
abbrev RivalRow := List (Option (List (List Char)))

/-- The per-seat rival-card view (`rival_cards` in `game.py`). -/
abbrev RivalCards := List RivalRow

/-- The five keys produced by `IndianPokerPlayer.get_state`. -/
structure PStateBase where
  hand : List (List Char)
  rival_cards : RivalRow
  all_chips : List ℚ
  my_chips : ℚ
  legal_actions : List Action
deriving DecidableEq, Repr

/-- The full state mapping returned by `IndianPokerGame.get_state`: the player
dictionary plus the `stakes`, `current_player` and `pot` keys. -/
structure PState extends PStateBase where
  stakes : List ℚ
  current_player : ℕ
  pot : ℚ
deriving DecidableEq, Repr

/-- `IndianPokerPlayer.get_state`: the player's own hand index strings, the
rival-card row, all committed chips, own committed chips and the legal
actions. -/
def IndianPokerPlayer.get_state (p : IndianPokerPlayer) (rival_cards : RivalRow)
    (all_chips : List ℚ) (legal_actions : List Action) : PStateBase :=
  { hand := p.hand.map Card.get_index
    rival_cards := rival_cards
    all_chips := all_chips
    my_chips := p.in_chips
    legal_actions := legal_actions }

/-- `Except` carries the engine's error results; equality of results must be
decidable for the concrete counterexamples. -/
instance instDecidableEqExcept {ε α : Type} [DecidableEq ε] [DecidableEq α] :
    DecidableEq (Except ε α) := fun a b =>
  match a, b with
  | .ok x, .ok y =>
    if h : x = y then isTrue (by rw [h]) else isFalse (by simp [h])
  | .error x, .error y =>
    if h : x = y then isTrue (by rw [h]) else isFalse (by simp [h])
  | .ok _, .error _ => isFalse (by simp)
  | .error _, .ok _ => isFalse (by simp)

/-- Errors raised by the engine, named after the Python exceptions that the
source raises (`ValueError` in `continue_game`, the `assert` statements,
indexing past the end of `payoffs`, the missing `allow_step_back` attribute,
`Exception('Action not allowed')`, operations on a `None` attribute). -/
inductive PyError where
  | valueError
  | assertionError
  | indexError
  | attributeError
  | deckExhausted
  | typeError
  | exception (msg : String)
deriving DecidableEq, Repr

/-- Modelled from the spec: `dealer.py` is not under `src/`.  Per §3 and §4.1
the Dealer owns the ordered, pre-shuffled deck for one hand and the pot
bookkeeping; `deal_card` removes and returns the top card, failing when the
deck is empty.  The random shuffle is externalized: the deck is supplied
already shuffled. -/
structure Dealer where
  deck : List Card
  pot : ℚ
deriving DecidableEq, Repr

/-- Modelled from the spec (§4.1): remove and return the top card of the deck;
`none` models `DeckExhaustedError` on an empty deck. -/
def Dealer.deal_card (d : Dealer) : Option (Card × Dealer) :=
  match d.deck with
  | [] => none
  | c :: rest => some (c, { d with deck := rest })

/-- The maximum of a list of chip amounts, seeded with `0`.  All raised
amounts are nonnegative, so on the nonempty lists the source applies it to
this equals Python's unseeded `max`. -/
def maxQ (l : List ℚ) : ℚ := l.foldl max 0

/-- Modelled from the spec: `round.py` is not under `src/`.  Per §3 the Round
holds the seat to act (`game_pointer`), the raised-amount-per-seat mapping,
the minimum raise unit, and a not-yet-acted counter used to detect round
completion (modelled as `acted_num`, the number of actions taken this round).
The Dealer reference is held by the Game and passed explicitly where
needed. -/
structure Round where
  num_players : ℕ
  init_raise_amount : ℚ
  raised : List ℚ
  game_pointer : ℕ
  acted_num : ℕ
deriving DecidableEq, Repr

namespace Round

/-- Modelled from the spec (§4.3): `start_new_round(game_pointer, raised=None)`
resets the not-yet-acted counter and the pointer; `raised` seeds the initial
commitments (used once, for the forced blinds), defaulting to all zeros. -/
def start_new_round (r : Round) (game_pointer : ℕ) (raised : Option (List ℚ)) :
    Round :=
  { r with
    game_pointer := game_pointer
    acted_num := 0
    raised := raised.getD (List.replicate r.num_players 0) }

/-- The current maximum raised amount. -/
def maxRaised (r : Round) : ℚ := maxQ r.raised

/-- The chips wagered this round (this variant has a single betting round, so
this equals the pot). -/
def potAmount (r : Round) : ℚ := r.raised.sum

/-- Modelled from the spec (§4.3): the legal actions for the seat to act.
`Fold` is always legal while alive; `Check` exactly when the seat's commitment
matches the maximum; `Call` when facing an outstanding bet (capped at the
stack, so always available then); `Raise` (half-pot or pot sized) when the
stack strictly exceeds the amount needed to match plus the raise and some
other seat is still alive to respond; `All-in` whenever the stack is
nonzero. -/
def get_nolimit_legal_actions (r : Round) (players : List IndianPokerPlayer) :
    List Action :=
  let gp := r.game_pointer
  let p := players.getD gp default
  let mr := r.maxRaised
  let my := r.raised.getD gp 0
  let diff := mr - my
  let pot := r.potAmount
  let others_can_respond := (List.range r.num_players).any fun j =>
    j ≠ gp && (players.getD j default).status = PlayerStatus.ALIVE
  [Action.CALL, Action.RAISE_HALF_POT, Action.RAISE_POT, Action.ALL_IN,
   Action.CHECK, Action.FOLD].filter fun a =>
    match a with
    | .CALL => decide (my < mr)
    | .RAISE_HALF_POT =>
        decide (diff + pot / 2 < p.remained_chips) && others_can_respond
    | .RAISE_POT =>
        decide (diff + pot < p.remained_chips) && others_can_respond
    | .ALL_IN => decide (0 < p.remained_chips)
    | .CHECK => decide (my = mr)
    | .FOLD => true

/-- Set status to `ALLIN` when the stack is exhausted after a bet (§4.2: the
Round observes `remained_chips == 0` post-bet and sets the status). -/
def markAllin (p : IndianPokerPlayer) : IndianPokerPlayer :=
  if p.remained_chips = 0 then { p with status := .ALLIN } else p

/-- Modelled from the spec (§4.3): the chip and status effect of one action on
the acting player.  `Call` bets the amount needed to match (capped by `bet`),
the raises bet match-plus-raise, `All-in` bets the whole stack and sets
`ALLIN`, `Fold` sets `FOLDED`, `Check` does nothing. -/
def apply_action (r : Round) (players : List IndianPokerPlayer)
    (action : Action) : IndianPokerPlayer :=
  let gp := r.game_pointer
  let p := players.getD gp default
  let diff := r.maxRaised - r.raised.getD gp 0
  match action with
  | .CHECK => p
  | .FOLD => { p with status := .FOLDED }
  | .CALL => markAllin (p.bet diff)
  | .RAISE_HALF_POT => markAllin (p.bet (diff + r.potAmount / 2))
  | .RAISE_POT => markAllin (p.bet (diff + r.potAmount))
  | .ALL_IN => { p.bet p.remained_chips with status := .ALLIN }

/-- Advance the pointer to the next seat with status `ALIVE` (skipping
`FOLDED`/`ALLIN` seats), by fuel-bounded search; the fuel covers a full lap,
and when no seat is alive the candidate itself is returned. -/
def nextAlivePointer (players : List IndianPokerPlayer) (gp n : ℕ) :
    ℕ → ℕ
  | 0 => (gp + 1) % n
  | fuel + 1 =>
    let g1 := (gp + 1) % n
    if (players.getD g1 default).status = PlayerStatus.ALIVE then g1
    else nextAlivePointer players g1 n fuel

/-- Modelled from the spec (§4.3): `proceed_round(players, action)` applies the
action's chip effects to the acting player, records the new commitment in
`raised`, counts the action, and advances `game_pointer` to the next alive
seat. -/
def proceed_round (r : Round) (players : List IndianPokerPlayer)
    (action : Action) : Round × List IndianPokerPlayer :=
  let gp := r.game_pointer
  let p := players.getD gp default
  let p1 := r.apply_action players action
  let players1 := players.set gp p1
  let raised1 := r.raised.set gp (r.raised.getD gp 0 + (p1.in_chips - p.in_chips))
  let gp1 := nextAlivePointer players1 gp r.num_players r.num_players
  ({ r with raised := raised1, game_pointer := gp1, acted_num := r.acted_num + 1 },
   players1)

/-- Modelled from the spec (§4.3 with the §9 clarification): the round is over
once at least one action has occurred and every seat still `ALIVE` has matched
the maximum raised amount (folded seats are out, all-in seats need not act; a
sole remaining actor that has not yet matched the maximum can still act). -/
def is_over (r : Round) (players : List IndianPokerPlayer) : Bool :=
  decide (1 ≤ r.acted_num) &&
    (List.range r.num_players).all fun i =>
      (players.getD i default).status ≠ PlayerStatus.ALIVE ||
        decide (r.maxRaised ≤ r.raised.getD i 0)

end Round

/-- Modelled from the spec: `judger.py` is not under `src/`.  Per §3 and §4.5
the Judger is a stateless service; it is represented by `Unit` and
`judge_game` below. -/
abbrev Judger : Type := Unit

/-- Modelled from the spec (§4.5): for seats with non-`None` hands compute the
rank key with `compare_hands` (from `utils.py`, which is under `src/`) and
award the full pot to the maximum-rank seats, splitting equally on ties; each
seat's signed payoff is its pot share minus its committed chips. -/
def Judger.judge_game (players : List IndianPokerPlayer)
    (hands : List (Option (List (List Char)))) : List ℚ :=
  let winners := compare_hands hands
  let pot := (players.map (·.in_chips)).sum
  let num_winners : ℕ := winners.sum
  List.zipWith
    (fun (w : ℕ) (p : IndianPokerPlayer) =>
      (w : ℚ) * pot / (num_winners : ℚ) - p.in_chips)
    winners players

/-- One history snapshot pushed by `step`: the tuple
`(round, game_pointer, round_counter, dealer, rival_cards, players)`.  In
Python each component is `deepcopy`-ed; values are immutable here, so the
snapshot simply stores them. -/
structure HistEntry where
  r : Round
  b : ℕ
  r_c : ℕ
  d : Dealer
  rv : RivalCards
  ps : List IndianPokerPlayer
deriving DecidableEq, Repr

/-- `IndianPokerGame` from `game.py`.  Every attribute that `__init__` sets to
`None` is an `Option`; `allow_step_back` is also an `Option` because
`__init__` accepts the argument but never assigns the attribute, so the
attribute only exists if some caller sets it externally.  The history stack is
kept most-recent-first (Python appends and pops at the end of the list). -/
structure IndianPokerGame where
  small_blind : ℚ
  big_blind : ℚ
  init_chips : List ℚ
  num_players : ℕ
  raise_amount : ℚ
  dealer_id : Option ℕ
  dealer : Option Dealer
  players : Option (List IndianPokerPlayer)
  judger : Option Judger
  rival_cards : Option RivalCards
  game_pointer : Option ℕ
  round : Option Round
  round_counter : Option ℕ
  history : Option (List HistEntry)
  allow_step_back : Option Bool
deriving DecidableEq, Repr

namespace IndianPokerGame

/-- `IndianPokerGame.__init__(allow_step_back=True, num_players=2,
init_chips=100)`: small blind 1, big blind 2, raise amount equal to the big
blind, every game attribute `None`.  The `allow_step_back` argument is
accepted but never stored on the instance. -/
def new (allow_step_back : Bool) (num_players : ℕ) (init_chips : ℚ) :
    IndianPokerGame :=
  let _ := allow_step_back
  { small_blind := 1
    big_blind := 2 * 1
    init_chips := List.replicate num_players init_chips
    num_players := num_players
    raise_amount := 2 * 1
    dealer_id := none
    dealer := none
    players := none
    judger := none
    rival_cards := none
    game_pointer := none
    round := none
    round_counter := none
    history := none
    allow_step_back := none }

/-- `IndianPokerGame.configure(game_config)`: set the number of players, the
per-seat initial chips, and the (possibly `None`) dealer id. -/
def configure (g : IndianPokerGame) (game_num_players : ℕ)
    (chips_for_each : ℚ) (dealer_id : Option ℕ) : IndianPokerGame :=
  { g with
    num_players := game_num_players
    init_chips := List.replicate game_num_players chips_for_each
    dealer_id := dealer_id }

/-- The `rival_cards` view built by `init_game`/`continue_game`:
`[[None if i==j else [c.get_index() for c in player.hand] for j, player in
enumerate(self.players)] for i in range(self.num_players)]` (iteration over
`enumerate(players)` is written as iteration over the index range). -/
def rivalCardsOf (ps : List IndianPokerPlayer) (n : ℕ) : RivalCards :=
  (List.range n).map fun i =>
    (List.range ps.length).map fun j =>
      if i = j then none
      else some ((ps.getD j default).hand.map Card.get_index)

/-- `IndianPokerGame.get_state(player_id)`: recompute the dealer's pot as the
sum of all committed chips, then build the state mapping (the player
dictionary plus `stakes`, `current_player` and `pot`).  The updated game is
returned because the pot write mutates the dealer. -/
def get_state (g : IndianPokerGame) (player_id : ℕ) :
    IndianPokerGame × Option PState :=
  match g.dealer, g.players, g.rival_cards, g.round, g.game_pointer with
  | some d, some ps, some rv, some rnd, some gp =>
    let pot := (ps.map (·.in_chips)).sum
    let chips := (List.range g.num_players).map fun i =>
      (ps.getD i default).in_chips
    let legal_actions := rnd.get_nolimit_legal_actions ps
    let base := (ps.getD player_id default).get_state (rv.getD player_id [])
      chips legal_actions
    let st : PState :=
      { base with
        stakes := (List.range g.num_players).map fun i =>
          (ps.getD i default).remained_chips
        current_player := gp
        pot := pot }
    ({ g with dealer := some { d with pot := pot } }, some st)
  | _, _, _, _, _ => (g, none)

/-- `IndianPokerGame.get_legal_actions()`: delegate to the round. -/
def get_legal_actions (g : IndianPokerGame) : Option (List Action) :=
  match g.round, g.players with
  | some rnd, some ps => some (rnd.get_nolimit_legal_actions ps)
  | _, _ => none

/-- `IndianPokerGame.init_game()`: pick the dealer id (the supplied
`rand_dealer` models `np_random.randint` when `dealer_id` is `None`), build a
fresh Dealer from the shuffled `deck`, fresh players and judger, deal one card
per seat, build `rival_cards`, post the big and small blinds from the seats
after the dealer, point at the seat after the big blind, seed the round with
the blind commitments, zero the round counter, empty the history, and return
the first state with the current player id. -/
def init_game (g : IndianPokerGame) (deck : List Card) (rand_dealer : ℕ) :
    Except PyError (IndianPokerGame × PState × ℕ) :=
  let did := g.dealer_id.getD rand_dealer
  let n := g.num_players
  if n ≤ deck.length then
    let players0 := (List.range n).map fun i =>
      { IndianPokerPlayer.new i (g.init_chips.getD i 0) with
        hand := [deck.getD i default] }
    let rv := rivalCardsOf players0 n
    let s := (did + 1) % n
    let b := (did + 2) % n
    let players1 := players0.set b ((players0.getD b default).bet g.big_blind)
    let players2 := players1.set s ((players1.getD s default).bet g.small_blind)
    let gp := (b + 1) % n
    let rnd := Round.start_new_round
      { num_players := n, init_raise_amount := g.big_blind, raised := [],
        game_pointer := 0, acted_num := 0 }
      gp (some (players2.map (·.in_chips)))
    let g1 : IndianPokerGame :=
      { g with
        dealer_id := some did
        dealer := some { deck := deck.drop n, pot := 0 }
        players := some players2
        judger := some ()
        rival_cards := some rv
        game_pointer := some gp
        round := some rnd
        round_counter := some 0
        history := some [] }
    match g1.get_state gp with
    | (g2, some st) => .ok (g2, st, gp)
    | (g2, none) => let _ := g2; .error .typeError
  else .error .deckExhausted

/-- The reset loop of `continue_game`: reset each player in order, stopping at
the first with `in_chips ≠ 0` (whose `reset()` assertion fails); the returned
flag reports whether every reset succeeded, and on failure the already-reset
prefix stays reset, as in Python. -/
def resetPlayers : List IndianPokerPlayer → List IndianPokerPlayer × Bool
  | [] => ([], true)
  | p :: rest =>
    if p.in_chips = 0 then
      let (r, ok) := resetPlayers rest
      (p.reset0 :: r, ok)
    else (p :: rest, false)

/-- `IndianPokerGame.continue_game()`: require a fully configured session
(`dealer_id`, `dealer`, `players`, `judger` all set), raising `ValueError`
otherwise without touching the game; then advance the dealer id, rebuild the
Dealer from the new shuffled `deck`, reset the players (each `reset()`
asserting `in_chips == 0`), deal one card per seat, rebuild `rival_cards`,
post the blinds, seed a fresh round and empty the history, exactly as
`init_game` does. -/
def continue_game (g : IndianPokerGame) (deck : List Card) :
    IndianPokerGame × Except PyError (PState × ℕ) :=
  match g.dealer_id, g.dealer, g.players, g.judger with
  | some did, some _, some ps, some _ =>
    let did1 := did + 1
    let d1 : Dealer := { deck := deck, pot := 0 }
    let (psR, okR) := resetPlayers ps
    if okR then
      let n := g.num_players
      if n ≤ deck.length then
        let players0 := (List.range n).map fun i =>
          { psR.getD i default with hand := [deck.getD i default] }
        let rv := rivalCardsOf players0 n
        let s := (did1 + 1) % n
        let b := (did1 + 2) % n
        let players1 := players0.set b
          ((players0.getD b default).bet g.big_blind)
        let players2 := players1.set s
          ((players1.getD s default).bet g.small_blind)
        let gp := (b + 1) % n
        let rnd := Round.start_new_round
          { num_players := n, init_raise_amount := g.big_blind, raised := [],
            game_pointer := 0, acted_num := 0 }
          gp (some (players2.map (·.in_chips)))
        let g1 : IndianPokerGame :=
          { g with
            dealer_id := some did1
            dealer := some { deck := deck.drop n, pot := 0 }
            players := some players2
            rival_cards := some rv
            game_pointer := some gp
            round := some rnd
            round_counter := some 0
            history := some [] }
        match g1.get_state gp with
        | (g2, some st) => (g2, .ok (st, gp))
        | (g2, none) => (g2, .error .typeError)
      else
        ({ g with
            dealer_id := some did1
            dealer := some d1
            players := some psR }, .error .deckExhausted)
    else
      ({ g with
          dealer_id := some did1
          dealer := some d1
          players := some psR }, .error .assertionError)
  | _, _, _, _ => (g, .error .valueError)

/-- The search for the first non-bypassed seat starting at `gp` (the `while
players_in_bypass[self.game_pointer]` loop in `step`), fuel-bounded by one
lap; `step` only enters it when a non-bypassed seat exists. -/
def findNonBypass (bypass : List ℕ) (gp n : ℕ) : ℕ → ℕ
  | 0 => gp
  | fuel + 1 =>
    if bypass.getD gp 0 ≠ 0 then findNonBypass bypass ((gp + 1) % n) n fuel
    else gp

/-- `IndianPokerGame.step(action)`: check legality (printing diagnostics —
which recomputes the dealer's pot via `get_state` — and raising a plain
`Exception('Action not allowed')` on failure); read `self.allow_step_back`
(an `AttributeError` if never set); push a deep snapshot when it is true;
delegate to `Round.proceed_round`; recompute the bypassed seats (folded or
all-in, plus the sole remaining seat when it already matches the maximum
raise); when the round is over, re-derive the pointer as the first
non-bypassed seat after the dealer, advance the round counter and start a new
round; finally return the new state and pointer. -/
def step (g : IndianPokerGame) (action : Action) :
    IndianPokerGame × Except PyError (PState × ℕ) :=
  match g.round, g.players, g.game_pointer, g.dealer_id, g.round_counter,
      g.dealer, g.rival_cards, g.history with
  | some rnd, some ps, some gp, some did, some rc, some d, some rv, some h =>
    if action ∈ rnd.get_nolimit_legal_actions ps then
      match g.allow_step_back with
      | none => (g, .error .attributeError)
      | some allow =>
        let g1 := if allow then
            { g with history := some (⟨rnd, gp, rc, d, rv, ps⟩ :: h) }
          else g
        let pr := rnd.proceed_round ps action
        let rnd1 := pr.1
        let ps1 := pr.2
        let bypass0 := ps1.map fun p =>
          if p.status = PlayerStatus.FOLDED ∨ p.status = PlayerStatus.ALLIN
          then (1 : ℕ) else 0
        let bypass :=
          if g.num_players - bypass0.sum = 1 then
            let last_player := bypass0.indexOf 0
            if maxQ rnd1.raised ≤ rnd1.raised.getD last_player 0 then
              bypass0.set last_player 1
            else bypass0
          else bypass0
        let res :=
          if rnd1.is_over ps1 then
            let start := (did + 1) % g.num_players
            let gp2 :=
              if bypass.sum < g.num_players then
                findNonBypass bypass start g.num_players g.num_players
              else start
            (gp2, rc + 1, rnd1.start_new_round gp2 none)
          else (rnd1.game_pointer, rc, rnd1)
        let g2 :=
          { g1 with
            round := some res.2.2
            game_pointer := some res.1
            round_counter := some res.2.1
            players := some ps1 }
        match g2.get_state res.1 with
        | (g3, some st) => (g3, .ok (st, res.1))
        | (g3, none) => (g3, .error .typeError)
    else ((g.get_state gp).1, .error (.exception "Action not allowed"))
  | _, _, _, _, _, _, _, _ => (g, .error .typeError)

/-- `IndianPokerGame.step_back()`: pop the most recent history snapshot and
restore round, pointer, round counter, dealer, rival cards and players from
it, returning `true`; return `false` on an empty history; `none` models the
`TypeError` of `len(None)` on a game that was never initialized. -/
def step_back (g : IndianPokerGame) : IndianPokerGame × Option Bool :=
  match g.history with
  | some (e :: rest) =>
    ({ g with
        round := some e.r
        game_pointer := some e.b
        round_counter := some e.r_c
        dealer := some e.d
        rival_cards := some e.rv
        players := some e.ps
        history := some rest }, some true)
  | some [] => (g, some false)
  | none => (g, none)

/-- `IndianPokerGame.is_over()`: the hand is over when only one player has a
status in `(ALIVE, ALLIN)` — that is, only one player is un-folded — or the
round counter has reached 1. -/
def is_over (g : IndianPokerGame) : Option Bool :=
  match g.players, g.round_counter with
  | some ps, some rc =>
    let alive_players := ps.map fun p =>
      if p.status = PlayerStatus.ALIVE ∨ p.status = PlayerStatus.ALLIN
      then (1 : ℕ) else 0
    if alive_players.sum = 1 then some true
    else if 1 ≤ rc then some true
    else some false
  | _, _ => none

/-- `IndianPokerGame.get_payoffs()`: hand each un-folded seat's card index
strings (`None` for folded seats) to the judger and return the signed chip
payoffs. -/
def get_payoffs (g : IndianPokerGame) : Option (List ℚ) :=
  match g.players, g.judger with
  | some ps, some _ =>
    let hands := ps.map fun p =>
      if p.status = PlayerStatus.ALIVE ∨ p.status = PlayerStatus.ALLIN
      then some (p.hand.map Card.get_index) else none
    some (Judger.judge_game ps hands)
  | _, _ => none

/-- The settlement loop of `IndianPokerGame.update`: apply
`IndianPokerPlayer.update` seat by seat with the matching payoff, collecting
the solvency indicators; the flag is `false` when `payoffs` runs out before
the players do (Python's `IndexError`), in which case the remaining players
stay untouched. -/
def updatePlayers : List IndianPokerPlayer → List ℚ →
    List IndianPokerPlayer × List ℕ × Bool
  | [], _ => ([], [], true)
  | p :: rest, pay :: payRest =>
    let u := p.update pay
    let r := updatePlayers rest payRest
    (u.1 :: r.1, (if u.2 then 1 else 0) :: r.2.1, r.2.2)
  | p :: rest, [] => (p :: rest, [], false)

/-- `IndianPokerGame.update(trajectories, payoffs)`: apply `Player.update` per
seat (the `trajectories` parameter is unused, as in the source), assert that
at least one seat remains solvent, and return the per-seat indicator vector
together with whether exactly one seat won. -/
def update (g : IndianPokerGame) (trajectories : List (List PState))
    (payoffs : List ℚ) : IndianPokerGame × Except PyError (List ℕ × Bool) :=
  let _ := trajectories
  match g.players with
  | some ps =>
    let u := updatePlayers ps payoffs
    let g1 := { g with players := some u.1 }
    if u.2.2 then
      if 0 < u.2.1.sum then (g1, .ok (u.2.1, decide (u.2.1.sum = 1)))
      else (g1, .error .assertionError)
    else (g1, .error .indexError)
  | none => (g, .error .typeError)

end IndianPokerGame

/-! ## Helper constructions for the theorems -/

/-- A fully initialized game: every attribute that `init_game` sets is set.
Quantifying over the arguments of `running` quantifies over all initialized
game states (the image of `init_game`/`continue_game`/`step` always has this
shape). -/
def running (sb bb ra : ℚ) (ic : List ℚ) (n did : ℕ) (d : Dealer)
    (j : Option Judger) (ps : List IndianPokerPlayer) (rv : RivalCards)
    (gp : ℕ) (rnd : Round) (rc : ℕ) (h : List HistEntry)
    (asb : Option Bool) : IndianPokerGame :=
  { small_blind := sb
    big_blind := bb
    init_chips := ic
    num_players := n
    raise_amount := ra
    dealer_id := some did
    dealer := some d
    players := some ps
    judger := j
    rival_cards := some rv
    game_pointer := some gp
    round := some rnd
    round_counter := some rc
    history := some h
    allow_step_back := asb }

/-- The concrete post-`init_game` players of a 2-player game with 100 chips
each and dealer id 0: seat 0 posted the big blind (2), seat 1 the small
blind (1). -/
def psInit : List IndianPokerPlayer :=
  [⟨0, [⟨'S', 'A'⟩], .ALIVE, 2, 98⟩, ⟨1, [⟨'H', 'T'⟩], .ALIVE, 1, 99⟩]

/-- The concrete post-`init_game` round: blinds seeded as raised amounts,
seat 1 (after the big blind) to act. -/
def rndInit : Round := ⟨2, 2, [2, 1], 1, 0⟩

/-- A concrete fully initialized 2-player game (the state right after
`init_game` with dealer id 0), parameterized by the `allow_step_back`
attribute value. -/
def gInit (asb : Option Bool) : IndianPokerGame :=
  running 1 2 2 [100, 100] 2 0 ⟨[], 3⟩ (some ()) psInit
    (IndianPokerGame.rivalCardsOf psInit 2) 1 rndInit 0 [] asb

/-! ## C4 — `bet` moves exactly `min(chips, remained_chips)` -/

/-- C4: for every player and every requested `chips ≥ 0`, `bet(chips)` moves
exactly `min(chips, remained_chips)` from `remained_chips` to `in_chips`;
hence `in_chips + remained_chips` is conserved, `remained_chips` stays
nonnegative, and the status is untouched. -/
theorem bet_moves_min_conserves_chips (p : IndianPokerPlayer) (chips : ℚ)
    (hchips : 0 ≤ chips) :
    (p.bet chips).in_chips = p.in_chips + min chips p.remained_chips ∧
    (p.bet chips).remained_chips
      = p.remained_chips - min chips p.remained_chips ∧
    (p.bet chips).in_chips + (p.bet chips).remained_chips
      = p.in_chips + p.remained_chips ∧
    0 ≤ (p.bet chips).remained_chips ∧
    (p.bet chips).status = p.status := by
  have hmin : (if chips ≤ p.remained_chips then chips else p.remained_chips)
      = min chips p.remained_chips := by
    by_cases h : chips ≤ p.remained_chips
    · rw [if_pos h, min_eq_left h]
    · rw [if_neg h, min_eq_right (le_of_not_le h)]
  simp only [IndianPokerPlayer.bet, hmin]
  have hle : min chips p.remained_chips ≤ p.remained_chips := min_le_right _ _
  exact ⟨trivial, trivial, by ring, by linarith, trivial⟩

/-- Witness for C4 at a concrete input: a player with a 1-chip stack asked to
bet 2 commits exactly 1. -/
theorem bet_moves_min_conserves_chips_witness :
    ((⟨0, [], .ALIVE, 2, 1⟩ : IndianPokerPlayer).bet 2).in_chips
        = 2 + min 2 1 ∧
    ((⟨0, [], .ALIVE, 2, 1⟩ : IndianPokerPlayer).bet 2).remained_chips
        = 1 - min 2 1 ∧
    ((⟨0, [], .ALIVE, 2, 1⟩ : IndianPokerPlayer).bet 2).in_chips
        + ((⟨0, [], .ALIVE, 2, 1⟩ : IndianPokerPlayer).bet 2).remained_chips
        = 2 + 1 ∧
    0 ≤ ((⟨0, [], .ALIVE, 2, 1⟩ : IndianPokerPlayer).bet 2).remained_chips ∧
    ((⟨0, [], .ALIVE, 2, 1⟩ : IndianPokerPlayer).bet 2).status = .ALIVE :=
  bet_moves_min_conserves_chips ⟨0, [], .ALIVE, 2, 1⟩ 2 (by norm_num)

/-! ## C1 — `step` followed by `step_back` restores the game -/

/-- C1 counterexample: the claim quantifies over **every** game state, but the
snapshot in `step` is only pushed when the game object's `allow_step_back`
attribute (set externally, never by the constructor) is true.  On the concrete
post-`init_game` state with `allow_step_back = some false` the legal action
`CALL` steps fine, yet `step_back()` returns `false` (empty history), not
`true`, and the game is not restored (the round counter moved). -/
theorem step_back_fails_without_allow_flag :
    Action.CALL
        ∈ Round.get_nolimit_legal_actions rndInit psInit ∧
    (IndianPokerGame.step_back
        ((IndianPokerGame.step (gInit (some false)) Action.CALL).1)).2
        = some false ∧
    ((IndianPokerGame.step (gInit (some false)) Action.CALL).1).round_counter
        ≠ (gInit (some false)).round_counter := by
  refine ⟨by decide, by decide, by decide⟩

/-- C1 (amended): for every **initialized game state whose `allow_step_back`
attribute is set to `true`** and every legal action, `step(action)` followed
by `step_back()` restores the game exactly — Round, game pointer, round
counter, Dealer, rival_cards and Players all return to their values before
the `step()`, the history stack returns to its old value, and `step_back()`
returns `true`. -/
theorem step_then_step_back_restores (sb bb ra : ℚ) (ic : List ℚ)
    (n did : ℕ) (d : Dealer) (j : Option Judger)
    (ps : List IndianPokerPlayer) (rv : RivalCards) (gp : ℕ) (rnd : Round)
    (rc : ℕ) (h : List HistEntry) (a : Action)
    (hlegal : a ∈ rnd.get_nolimit_legal_actions ps) :
    IndianPokerGame.step_back
        ((IndianPokerGame.step
            (running sb bb ra ic n did d j ps rv gp rnd rc h (some true)) a).1)
      = (running sb bb ra ic n did d j ps rv gp rnd rc h (some true),
         some true) := by
  unfold running
  simp only [IndianPokerGame.step]
  rw [if_pos hlegal]
  rfl

/-- Witness for C1 at a concrete input: one legal `CALL` from the
post-`init_game` state with the step-back flag set. -/
theorem step_then_step_back_restores_witness :
    IndianPokerGame.step_back
        ((IndianPokerGame.step (gInit (some true)) Action.CALL).1)
      = (gInit (some true), some true) :=
  step_then_step_back_restores 1 2 2 [100, 100] 2 0 ⟨[], 3⟩ (some ()) psInit
    (IndianPokerGame.rivalCardsOf psInit 2) 1 rndInit 0 [] Action.CALL
    (by decide)

/-! ## C6 — illegal actions -/

/-- Players for the C6 counterexample: the acting seat 0 has matched the
maximum (2) but holds only 1 chip, so both `CALL` and the raises are
illegal. -/
def psC6 : List IndianPokerPlayer :=
  [⟨0, [⟨'S', 'A'⟩], .ALIVE, 2, 1⟩, ⟨1, [⟨'H', 'T'⟩], .ALIVE, 2, 98⟩]

/-- Round for the C6 counterexample: both seats raised 2, seat 0 to act. -/
def rndC6 : Round := ⟨2, 2, [2, 2], 0, 1⟩

/-- Concrete game for the C6 counterexample, parameterized by the pot stored
in the dealer. -/
def gC6 (pot : ℚ) : IndianPokerGame :=
  running 1 2 2 [100, 100] 2 0 ⟨[], pot⟩ (some ()) psC6
    (IndianPokerGame.rivalCardsOf psC6 2) 0 rndC6 0 [] (some true)

/-- C6 counterexample: the claim says an illegal `step(action)` fails with a
typed error carrying the attempted action, the legal set and a state
snapshot, and mutates no game state.  In the code the raised exception is the
bare `Exception('Action not allowed')`: two *different* illegal actions at
the same state produce *identical* results, so the error cannot carry the
attempted action; and `step` is not entirely mutation-free on failure — the
diagnostic `print(self.get_state(...))` rewrites the dealer's cached pot, so
on a game with a stale pot the failing `step` changes the game object. -/
theorem step_illegal_error_carries_no_context :
    Action.CALL ∉ Round.get_nolimit_legal_actions rndC6 psC6 ∧
    Action.RAISE_HALF_POT ∉ Round.get_nolimit_legal_actions rndC6 psC6 ∧
    Action.CALL ≠ Action.RAISE_HALF_POT ∧
    IndianPokerGame.step (gC6 4) Action.CALL
      = IndianPokerGame.step (gC6 4) Action.RAISE_HALF_POT ∧
    (IndianPokerGame.step (gC6 0) Action.CALL).1 ≠ gC6 0 := by
  refine ⟨by decide, by decide, by decide, by decide, by decide⟩

/-- C6 (amended): for every initialized game state and every action outside
the current legal-action set, `step(action)` fails with the plain
`Exception('Action not allowed')` (the attempted action, legal set and state
are only printed, not attached to the error), performs no history push and no
chip or pointer change — the only mutation is the dealer's cached pot being
recomputed by the diagnostic `get_state` call — and never substitutes a
default legal action. -/
theorem step_illegal_raises_plain_exception (sb bb ra : ℚ) (ic : List ℚ)
    (n did : ℕ) (d : Dealer) (j : Option Judger)
    (ps : List IndianPokerPlayer) (rv : RivalCards) (gp : ℕ) (rnd : Round)
    (rc : ℕ) (h : List HistEntry) (asb : Option Bool) (a : Action)
    (hillegal : a ∉ rnd.get_nolimit_legal_actions ps) :
    IndianPokerGame.step (running sb bb ra ic n did d j ps rv gp rnd rc h asb) a
      = (running sb bb ra ic n did ⟨d.deck, (ps.map (·.in_chips)).sum⟩ j ps rv
           gp rnd rc h asb,
         .error (.exception "Action not allowed")) := by
  unfold running
  simp only [IndianPokerGame.step]
  rw [if_neg hillegal]
  rfl

/-- Witness for the amended C6 at a concrete input: `CHECK` is illegal right
after `init_game` (the small blind has not matched the big blind), and `step`
returns the unchanged game (its cached pot was already current) with the
plain exception. -/
theorem step_illegal_raises_plain_exception_witness :
    IndianPokerGame.step (gInit (some true)) Action.CHECK
      = (gInit (some true), .error (.exception "Action not allowed")) :=
  step_illegal_raises_plain_exception 1 2 2 [100, 100] 2 0 ⟨[], 3⟩ (some ())
    psInit (IndianPokerGame.rivalCardsOf psInit 2) 1 rndInit 0 [] (some true)
    Action.CHECK (by decide)

/-! ## C10 — the dropped `allow_step_back` constructor argument -/

/-- C10: `__init__` accepts `allow_step_back` but never stores it (the
constructed game does not depend on the argument), `init_game` leaves the
attribute exactly as it found it (in particular unset on a game built by the
constructor), and on any initialized game whose `allow_step_back` attribute
was never set externally, `step` with a *legal* action fails with the
`AttributeError` from reading `self.allow_step_back`, leaving the game
unchanged. -/
theorem allow_step_back_never_stored :
    (∀ (a b : Bool) (n : ℕ) (c : ℚ),
      IndianPokerGame.new a n c = IndianPokerGame.new b n c) ∧
    (∀ (g : IndianPokerGame) (deck : List Card) (ch : ℕ),
      ((IndianPokerGame.init_game g deck ch).toOption.map
          (fun out => out.1.allow_step_back)).getD g.allow_step_back
        = g.allow_step_back) ∧
    (∀ (sb bb ra : ℚ) (ic : List ℚ) (n did : ℕ) (d : Dealer)
        (j : Option Judger) (ps : List IndianPokerPlayer) (rv : RivalCards)
        (gp : ℕ) (rnd : Round) (rc : ℕ) (h : List HistEntry) (a : Action),
      a ∈ rnd.get_nolimit_legal_actions ps →
      IndianPokerGame.step (running sb bb ra ic n did d j ps rv gp rnd rc h none) a
        = (running sb bb ra ic n did d j ps rv gp rnd rc h none,
           .error .attributeError)) := by
  refine ⟨fun a b n c => rfl, fun g deck ch => ?_, ?_⟩
  · unfold IndianPokerGame.init_game
    by_cases hlen : g.num_players ≤ deck.length
    · rw [if_pos hlen]
      rfl
    · rw [if_neg hlen]
      rfl
  · intro sb bb ra ic n did d j ps rv gp rnd rc h a hlegal
    unfold running
    simp only [IndianPokerGame.step]
    rw [if_pos hlegal]

/-- Witness for C10 at concrete inputs: the constructor forgets the flag, and
a legal `CALL` on the freshly initialized game hits the `AttributeError`. -/
theorem allow_step_back_never_stored_witness :
    IndianPokerGame.new true 2 100 = IndianPokerGame.new false 2 100 ∧
    IndianPokerGame.step (gInit none) Action.CALL
      = (gInit none, .error .attributeError) :=
  ⟨allow_step_back_never_stored.1 true false 2 100,
   allow_step_back_never_stored.2.2 1 2 2 [100, 100] 2 0 ⟨[], 3⟩ (some ())
     psInit (IndianPokerGame.rivalCardsOf psInit 2) 1 rndInit 0 [] Action.CALL
     (by decide)⟩

/-! ## C5 — when `is_over` returns true -/

/-- The claim's notion of a bypassed seat, written from the claim's own words
for comparison against the code: a seat that has folded, is all-in, or is the
sole remaining actor already matching the maximum raised amount. -/
def specBypassed (ps : List IndianPokerPlayer) (raised : List ℚ) (i : ℕ) :
    Bool :=
  let basic := fun k : ℕ =>
    decide ((ps.getD k default).status = PlayerStatus.FOLDED) ||
    decide ((ps.getD k default).status = PlayerStatus.ALLIN)
  basic i ||
    ((List.range ps.length).all (fun j => decide (j = i) || basic j) &&
     decide (maxQ raised ≤ raised.getD i 0))

/-- The number of seats that are not bypassed in the claim's sense. -/
def specUnbypassedCount (ps : List IndianPokerPlayer) (raised : List ℚ) : ℕ :=
  ((List.range ps.length).filter (fun i => ! specBypassed ps raised i)).length

/-- Players for the C5 counterexample: seat 0 has moved all-in for 100, seat 1
is alive with only the big blind committed and must still respond. -/
def psC5 : List IndianPokerPlayer :=
  [⟨0, [⟨'S', 'A'⟩], .ALLIN, 100, 0⟩, ⟨1, [⟨'H', 'T'⟩], .ALIVE, 2, 98⟩]

/-- Round for the C5 counterexample: raised amounts 100 and 2, seat 1 to
act. -/
def rndC5 : Round := ⟨2, 2, [100, 2], 1, 1⟩

/-- Concrete game for the C5 counterexample. -/
def gC5 : IndianPokerGame :=
  running 1 2 2 [100, 100] 2 0 ⟨[], 102⟩ (some ()) psC5
    (IndianPokerGame.rivalCardsOf psC5 2) 1 rndC5 0 [] (some true)

/-- C5 counterexample: in the state where seat 0 is all-in for 100 and seat 1
(alive, 2 committed) has not yet responded, exactly one seat is un-bypassed in
the claim's sense (seat 0 is all-in hence bypassed; seat 1 has not matched the
maximum) and the round counter is 0, so the claim says `is_over()` is true —
but the code counts all-in players as still alive (`status in (ALIVE, ALLIN)`)
and returns false. -/
theorem is_over_claim_counterexample :
    specUnbypassedCount psC5 rndC5.raised = 1 ∧
    gC5.round_counter = some 0 ∧
    IndianPokerGame.is_over gC5 = some false := by
  refine ⟨by decide, by decide, by decide⟩

/-- The per-player alive indicator summed by `is_over` counts exactly the
un-folded players. -/
theorem alive_indicator_sum_eq_countP (ps : List IndianPokerPlayer) :
    (ps.map fun p =>
        if p.status = PlayerStatus.ALIVE ∨ p.status = PlayerStatus.ALLIN
        then (1 : ℕ) else 0).sum
      = ps.countP (fun p => decide (p.status ≠ PlayerStatus.FOLDED)) := by
  induction ps with
  | nil => rfl
  | cons p rest ih =>
    rw [List.map_cons, List.sum_cons, List.countP_cons, ih]
    cases hp : p.status <;> simp [hp, Nat.add_comm]

/-- C5 (amended): `is_over()` returns true exactly when the round counter has
reached 1 or only one player remains **un-folded** — a player who is all-in
still counts as remaining, unlike in the claim's bypass-based condition. -/
theorem is_over_iff_counter_or_one_unfolded (g : IndianPokerGame)
    (ps : List IndianPokerPlayer) (rc : ℕ) (hps : g.players = some ps)
    (hrc : g.round_counter = some rc) :
    IndianPokerGame.is_over g = some true ↔
      (1 ≤ rc ∨ ps.countP (fun p => decide (p.status ≠ PlayerStatus.FOLDED)) = 1) := by
  unfold IndianPokerGame.is_over
  rw [hps, hrc]
  show (if (ps.map fun p =>
        if p.status = PlayerStatus.ALIVE ∨ p.status = PlayerStatus.ALLIN
        then (1 : ℕ) else 0).sum = 1 then some true
      else if 1 ≤ rc then some true else some false) = some true ↔ _
  rw [alive_indicator_sum_eq_countP]
  split_ifs with h1 h2
  · exact iff_of_true rfl (Or.inr h1)
  · exact iff_of_true rfl (Or.inl h2)
  · exact iff_of_false (by simp) (fun h => h.elim h2 h1)

/-- Witness for the amended C5 at a concrete input: in the counterexample
state (counter 0, both seats un-folded) the code's `is_over` is not true. -/
theorem is_over_iff_counter_or_one_unfolded_witness :
    (IndianPokerGame.is_over gC5 = some true ↔
      (1 ≤ 0 ∨ psC5.countP (fun p => decide (p.status ≠ PlayerStatus.FOLDED)) = 1)) :=
  is_over_iff_counter_or_one_unfolded gC5 psC5 0 rfl rfl

/-! ## C8 — the blind-posting scenario -/

/-- C8: after `init_game()` on a game configured for two players with 100
chips each, blinds 1/2 and dealer id fixed at 0 (with any deck of at least two
cards): seat 1 — the seat after the dealer — has committed 1 chip (small
blind, 99 remaining), seat 0 has committed 2 (big blind, 98 remaining), the
round's seeded raised amounts are exactly those commitments `[2, 1]`, the pot
reported in the returned state is 3, and the first seat to act — returned as
the current player and stored in the game pointer — is the seat after the big
blind, `((0 + 2) % 2 + 1) % 2 = 1`. -/
theorem init_game_blinds_scenario (c0 c1 : Card) (rest : List Card) (ch : ℕ) :
    ∃ gs st,
      IndianPokerGame.init_game
          (IndianPokerGame.configure (IndianPokerGame.new true 2 100) 2 100
            (some 0))
          (c0 :: c1 :: rest) ch
        = .ok (gs, st, ((0 + 2) % 2 + 1) % 2) ∧
      (gs.players.map (fun l => l.map (·.in_chips))) = some [2, 1] ∧
      (gs.players.map (fun l => l.map (·.remained_chips))) = some [98, 99] ∧
      (gs.round.map Round.raised) = some [2, 1] ∧
      st.pot = 3 ∧
      gs.game_pointer = some (((0 + 2) % 2 + 1) % 2) := by
  have hlen : (IndianPokerGame.configure (IndianPokerGame.new true 2 100) 2 100
      (some 0)).num_players ≤ (c0 :: c1 :: rest).length := by
    show 2 ≤ rest.length + 1 + 1
    omega
  unfold IndianPokerGame.init_game
  rw [if_pos hlen]
  refine ⟨_, _, rfl, ?_, ?_, ?_, ?_, ?_⟩ <;>
    simp [IndianPokerGame.new, IndianPokerGame.configure, IndianPokerPlayer.new,
      IndianPokerPlayer.bet, Round.start_new_round, IndianPokerGame.get_state,
      List.range_succ] <;> norm_num

/-! ## C2 — payoffs sum to zero -/

/-- Folding `max` over a list starting from an element of the list stays in
the list. -/
theorem foldl_max_mem_cons (xs : List ℤ) (x : ℤ) :
    List.foldl max x xs ∈ x :: xs := by
  induction xs generalizing x with
  | nil => simp
  | cons y ys ih =>
    rw [List.foldl_cons]
    rcases List.mem_cons.mp (ih (max x y)) with h | h
    · rcases max_choice x y with hm | hm <;> rw [hm] at h ⊢ <;> simp [h]
    · simp [h]

/-- `evaluate_hand` never returns less than `-1`. -/
theorem neg_one_le_evaluate_hand (hand : Option (List (List Char))) :
    -1 ≤ evaluate_hand hand := by
  unfold evaluate_hand
  match hand with
  | none => exact le_refl _
  | some h => exact le_trans (by norm_num) (Int.natCast_nonneg _)

/-- The rank maximum computed by `compare_hands` is attained on a nonempty
rank list. -/
theorem foldl_max_neg_one_mem (xs : List ℤ) (hne : xs ≠ [])
    (hb : ∀ x ∈ xs, -1 ≤ x) : List.foldl max (-1) xs ∈ xs := by
  match xs, hne with
  | x :: ys, _ =>
    have hx : max (-1) x = x := max_eq_right (hb x (by simp))
    rw [List.foldl_cons, hx]
    exact foldl_max_mem_cons ys x

/-- A list whose indicator for a present value is summed has sum at least
one. -/
theorem one_le_sum_indicator (xs : List ℤ) (m : ℤ) (hm : m ∈ xs) :
    1 ≤ (xs.map fun r => if r = m then (1 : ℕ) else 0).sum := by
  induction xs with
  | nil => cases hm
  | cons x ys ih =>
    rw [List.map_cons, List.sum_cons]
    rcases List.mem_cons.mp hm with h | h
    · rw [if_pos h.symm]
      omega
    · have := ih h
      omega

/-- `compare_hands` marks at least one winner on a nonempty hand list. -/
theorem one_le_compare_hands_sum (hands : List (Option (List (List Char))))
    (hne : hands ≠ []) : 1 ≤ (compare_hands hands).sum := by
  unfold compare_hands
  apply one_le_sum_indicator
  apply foldl_max_neg_one_mem
  · simpa using hne
  · intro x hx
    rcases List.mem_map.mp hx with ⟨h, _, rfl⟩
    exact neg_one_le_evaluate_hand h

/-- Summing the per-seat settlement `w * c - in_chips` splits into the
indicator sum times the share minus the committed total. -/
theorem sum_zipWith_share (ws : List ℕ) (ps : List IndianPokerPlayer)
    (c1 c2 : ℚ) (hlen : ws.length = ps.length) :
    (List.zipWith (fun (w : ℕ) (p : IndianPokerPlayer) =>
        (w : ℚ) * c1 / c2 - p.in_chips) ws ps).sum
      = (ws.sum : ℚ) * c1 / c2 - (ps.map (·.in_chips)).sum := by
  induction ws generalizing ps with
  | nil =>
    match ps, hlen with
    | [], _ => simp
  | cons w rest ih =>
    match ps, hlen with
    | p :: ps', hlen =>
      have hlen' : rest.length = ps'.length := by
        simpa using hlen
      rw [List.zipWith_cons_cons, List.sum_cons, ih ps' hlen', List.map_cons,
        List.sum_cons, List.sum_cons]
      push_cast
      ring

/-- The payoffs produced by `judge_game` always sum to zero: the winners share
the whole pot and every seat is debited its committed chips. -/
theorem judge_game_sum_zero (ps : List IndianPokerPlayer)
    (hands : List (Option (List (List Char))))
    (hlen : hands.length = ps.length) :
    (Judger.judge_game ps hands).sum = 0 := by
  match ps, hands, hlen with
  | [], [], _ => rfl
  | [], h :: _, hlen => simp at hlen
  | p :: ps', hands, hlen =>
    have hne : hands ≠ [] := by
      intro h
      rw [h] at hlen
      simp at hlen
    have hlenw : (compare_hands hands).length = (p :: ps').length := by
      unfold compare_hands
      simpa using hlen
    have hnum : 1 ≤ (compare_hands hands).sum := one_le_compare_hands_sum _ hne
    have hnumQ : ((compare_hands hands).sum : ℚ) ≠ 0 := by
      have hz : (compare_hands hands).sum ≠ 0 := by omega
      exact_mod_cast hz
    simp only [Judger.judge_game]
    rw [sum_zipWith_share _ _ _ _ hlenw, mul_div_cancel_left₀ _ hnumQ,
      sub_self]

/-- C2: on every completed hand (`is_over()` true) the payoff vector returned
by `get_payoffs()` exists and sums to zero across all seats. -/
theorem get_payoffs_sum_zero (g : IndianPokerGame)
    (ps : List IndianPokerPlayer) (hps : g.players = some ps)
    (hj : g.judger = some ()) (hover : IndianPokerGame.is_over g = some true) :
    ∃ l, IndianPokerGame.get_payoffs g = some l ∧ l.sum = 0 := by
  refine ⟨Judger.judge_game ps (ps.map fun p =>
      if p.status = PlayerStatus.ALIVE ∨ p.status = PlayerStatus.ALLIN
      then some (p.hand.map Card.get_index) else none), ?_, ?_⟩
  · unfold IndianPokerGame.get_payoffs
    rw [hps, hj]
  · exact judge_game_sum_zero _ _ (by simp)

/-- Players of a completed concrete hand for the C2 witness: seat 0 folded
after posting the big blind, seat 1 wins the pot. -/
def psC2 : List IndianPokerPlayer :=
  [⟨0, [⟨'S', 'A'⟩], .FOLDED, 2, 98⟩, ⟨1, [⟨'H', 'T'⟩], .ALIVE, 1, 99⟩]

/-- A concrete completed game for the C2 witness. -/
def gC2 : IndianPokerGame :=
  running 1 2 2 [100, 100] 2 0 ⟨[], 3⟩ (some ()) psC2
    (IndianPokerGame.rivalCardsOf psC2 2) 1 ⟨2, 2, [2, 1], 1, 1⟩ 0 []
    (some true)

/-- Witness for C2 at a concrete input: the completed fold hand has a payoff
vector summing to zero. -/
theorem get_payoffs_sum_zero_witness :
    ∃ l, IndianPokerGame.get_payoffs gC2 = some l ∧ l.sum = 0 :=
  get_payoffs_sum_zero gC2 psC2 rfl rfl (by decide)

/-! ## C7 — settlement via `update` -/

/-- The settlement loop applies `IndianPokerPlayer.update` seat by seat: when
the payoff list is long enough it succeeds, and each updated seat holds its
old `remained_chips + in_chips + payoff`, zero `in_chips`, and a solvency
indicator matching `remained_chips > 0`. -/
theorem updatePlayers_spec (ps : List IndianPokerPlayer) (payoffs : List ℚ)
    (hlen : ps.length ≤ payoffs.length) :
    (IndianPokerGame.updatePlayers ps payoffs).2.2 = true ∧
    ∀ i, i < ps.length →
      ((IndianPokerGame.updatePlayers ps payoffs).1.getD i default).remained_chips
          = (ps.getD i default).remained_chips + (ps.getD i default).in_chips
            + payoffs.getD i 0 ∧
      ((IndianPokerGame.updatePlayers ps payoffs).1.getD i default).in_chips
          = 0 ∧
      (IndianPokerGame.updatePlayers ps payoffs).2.1.getD i 0
          = if 0 < (ps.getD i default).remained_chips
                + (ps.getD i default).in_chips + payoffs.getD i 0
            then 1 else 0 := by
  induction ps generalizing payoffs with
  | nil => exact ⟨rfl, fun i hi => absurd hi (by simp)⟩
  | cons p rest ih =>
    match payoffs, hlen with
    | pay :: payRest, hlen =>
      have hlen' : rest.length ≤ payRest.length := by simpa using hlen
      obtain ⟨hok, hseats⟩ := ih payRest hlen'
      refine ⟨by simpa [IndianPokerGame.updatePlayers] using hok, ?_⟩
      intro i hi
      match i with
      | 0 =>
        refine ⟨rfl, rfl, ?_⟩
        by_cases h : 0 < p.remained_chips + p.in_chips + pay <;>
          simp [IndianPokerGame.updatePlayers, IndianPokerPlayer.update, h]
      | i + 1 =>
        have hi' : i < rest.length := by simpa using hi
        simpa [IndianPokerGame.updatePlayers, List.getD_cons_succ]
          using hseats i hi'

/-- C7 counterexample: the claim quantifies over **every** payoff vector, but
`update` asserts that at least one seat stays solvent.  On a concrete
settled game where both seats end with zero chips the call fails with the
`AssertionError` instead of returning the indicator vector and flag. -/
theorem update_asserts_on_total_insolvency :
    (IndianPokerGame.update
        (running 1 2 2 [100, 100] 2 0 ⟨[], 3⟩ (some ())
          [⟨0, [⟨'S', 'A'⟩], .ALIVE, 2, 0⟩, ⟨1, [⟨'H', 'T'⟩], .ALIVE, 1, 0⟩]
          [] 1 rndInit 1 [] (some true))
        [] [-2, -1]).2
      = .error .assertionError := by decide

/-- C7 (amended): `update(trajectories, payoffs)` (the `trajectories`
parameter is unused) applies `Player.update` per seat — each seat's
`remained_chips` increases by `in_chips` plus its signed payoff and its
`in_chips` becomes 0, with `Player.update` returning `remained_chips > 0`
rather than raising on insolvency — and, **provided the payoff vector covers
every seat and leaves at least one seat solvent**, `update` returns the
per-seat solvency-indicator vector together with a flag that is true iff
exactly one seat won; when every seat ends insolvent the `assert` fails
instead of returning. -/
theorem update_settles_and_reports_winner (g : IndianPokerGame)
    (trajectories : List (List PState)) (ps : List IndianPokerPlayer)
    (payoffs : List ℚ) (hps : g.players = some ps)
    (hlen : ps.length ≤ payoffs.length)
    (hsolv : 0 < (IndianPokerGame.updatePlayers ps payoffs).2.1.sum) :
    IndianPokerGame.update g trajectories payoffs
      = ({ g with players := some (IndianPokerGame.updatePlayers ps payoffs).1 },
         .ok ((IndianPokerGame.updatePlayers ps payoffs).2.1,
           decide ((IndianPokerGame.updatePlayers ps payoffs).2.1.sum = 1))) ∧
    ∀ i, i < ps.length →
      ((IndianPokerGame.updatePlayers ps payoffs).1.getD i default).remained_chips
          = (ps.getD i default).remained_chips + (ps.getD i default).in_chips
            + payoffs.getD i 0 ∧
      ((IndianPokerGame.updatePlayers ps payoffs).1.getD i default).in_chips
          = 0 ∧
      (IndianPokerGame.updatePlayers ps payoffs).2.1.getD i 0
          = if 0 < (ps.getD i default).remained_chips
                + (ps.getD i default).in_chips + payoffs.getD i 0
            then 1 else 0 := by
  obtain ⟨hok, hseats⟩ := updatePlayers_spec ps payoffs hlen
  refine ⟨?_, hseats⟩
  unfold IndianPokerGame.update
  rw [hps]
  show (if (IndianPokerGame.updatePlayers ps payoffs).2.2 = true then
      if 0 < (IndianPokerGame.updatePlayers ps payoffs).2.1.sum then
        ({ g with players := some (IndianPokerGame.updatePlayers ps payoffs).1 },
         Except.ok ((IndianPokerGame.updatePlayers ps payoffs).2.1,
           decide ((IndianPokerGame.updatePlayers ps payoffs).2.1.sum = 1)))
      else
        ({ g with players := some (IndianPokerGame.updatePlayers ps payoffs).1 },
         Except.error PyError.assertionError)
    else
      ({ g with players := some (IndianPokerGame.updatePlayers ps payoffs).1 },
       Except.error PyError.indexError))
    = ({ g with players := some (IndianPokerGame.updatePlayers ps payoffs).1 },
       Except.ok ((IndianPokerGame.updatePlayers ps payoffs).2.1,
         decide ((IndianPokerGame.updatePlayers ps payoffs).2.1.sum = 1)))
  rw [hok, if_pos rfl, if_pos hsolv]

/-- Witness for the amended C7 at a concrete input: settling a finished hand
where seat 1 wins one chip from seat 0. -/
theorem update_settles_and_reports_winner_witness :
    IndianPokerGame.update gC2 [] [-2, 2]
      = ({ gC2 with players := some (IndianPokerGame.updatePlayers psC2 [-2, 2]).1 },
         .ok ((IndianPokerGame.updatePlayers psC2 [-2, 2]).2.1,
           decide ((IndianPokerGame.updatePlayers psC2 [-2, 2]).2.1.sum = 1))) ∧
    ∀ i, i < psC2.length →
      ((IndianPokerGame.updatePlayers psC2 [-2, 2]).1.getD i default).remained_chips
          = (psC2.getD i default).remained_chips + (psC2.getD i default).in_chips
            + [(-2 : ℚ), 2].getD i 0 ∧
      ((IndianPokerGame.updatePlayers psC2 [-2, 2]).1.getD i default).in_chips
          = 0 ∧
      (IndianPokerGame.updatePlayers psC2 [-2, 2]).2.1.getD i 0
          = if 0 < (psC2.getD i default).remained_chips
                + (psC2.getD i default).in_chips + [(-2 : ℚ), 2].getD i 0
            then 1 else 0 :=
  update_settles_and_reports_winner gC2 [] psC2 [-2, 2] rfl (by decide)
    (by decide)

/-! ## C9 — `continue_game` requires a configured session -/

/-- C9: `continue_game()` fails with the session-not-initialized guard error
(the bare `ValueError` in the code) whenever the session is not fully
configured — dealer id, dealer, players or judger unset — returning the game
unchanged; when the session is fully configured its result is never that
guard error (it can only be the reset assertion or deck exhaustion); and
`init_game()` on a freshly constructed game always succeeds, for any positive
player count covered by the deck. -/
theorem continue_game_requires_session :
    (∀ (g : IndianPokerGame) (deck : List Card),
      (g.dealer_id = none ∨ g.dealer = none ∨ g.players = none ∨
        g.judger = none) →
      IndianPokerGame.continue_game g deck = (g, .error .valueError)) ∧
    (∀ (g : IndianPokerGame) (deck : List Card) (did : ℕ) (dd : Dealer)
        (pp : List IndianPokerPlayer) (jj : Judger),
      g.dealer_id = some did → g.dealer = some dd → g.players = some pp →
      g.judger = some jj →
      (IndianPokerGame.continue_game g deck).2 ≠ .error .valueError) ∧
    (∀ (a : Bool) (n : ℕ) (c : ℚ) (deck : List Card) (ch : ℕ),
      0 < n → n ≤ deck.length →
      ∃ out, IndianPokerGame.init_game (IndianPokerGame.new a n c) deck ch
        = .ok out) := by
  refine ⟨?_, ?_, ?_⟩
  · intro g deck hcase
    unfold IndianPokerGame.continue_game
    rcases h1 : g.dealer_id with _ | did
    · rfl
    · rcases h2 : g.dealer with _ | dd
      · rfl
      · rcases h3 : g.players with _ | pp
        · rfl
        · rcases h4 : g.judger with _ | jj
          · rfl
          · exfalso
            rcases hcase with h | h | h | h <;> simp_all
  · intro g deck did dd pp jj h1 h2 h3 h4
    unfold IndianPokerGame.continue_game
    rw [h1, h2, h3, h4]
    cases hok : (IndianPokerGame.resetPlayers pp).2
    · simp [hok]
    · by_cases hlen : g.num_players ≤ deck.length
      · simp [hok, hlen, IndianPokerGame.get_state]
      · simp [hok, hlen]
  · intro a n c deck ch hn hlen
    unfold IndianPokerGame.init_game
    rw [if_pos (show (IndianPokerGame.new a n c).num_players ≤ deck.length
      from hlen)]
    exact ⟨_, rfl⟩

/-- Witness for C9 at concrete inputs: a fresh game fails the guard and stays
unchanged; the initialized game never returns the guard error; `init_game` on
the fresh two-player game with a two-card deck succeeds. -/
theorem continue_game_requires_session_witness :
    IndianPokerGame.continue_game (IndianPokerGame.new true 2 100) []
      = (IndianPokerGame.new true 2 100, .error .valueError) ∧
    (IndianPokerGame.continue_game (gInit (some true))
        [⟨'S', '2'⟩, ⟨'H', '3'⟩]).2 ≠ .error .valueError ∧
    ∃ out, IndianPokerGame.init_game (IndianPokerGame.new true 2 100)
      [⟨'S', 'A'⟩, ⟨'H', 'T'⟩] 0 = .ok out :=
  ⟨continue_game_requires_session.1 (IndianPokerGame.new true 2 100) []
      (Or.inl rfl),
   continue_game_requires_session.2.1 (gInit (some true))
      [⟨'S', '2'⟩, ⟨'H', '3'⟩] 0 ⟨[], 3⟩ psInit () rfl rfl rfl rfl,
   continue_game_requires_session.2.2 true 2 100 [⟨'S', 'A'⟩, ⟨'H', 'T'⟩] 0
      (by norm_num) (by norm_num)⟩

/-! ## C3 — what the per-seat state reveals -/

/-- Indexing a range-map list below its length evaluates the function. -/
theorem getD_range_map {α : Type} (f : ℕ → α) (m i : ℕ) (dflt : α)
    (hi : i < m) : (((List.range m).map f).getD i dflt) = f i := by
  rw [List.getD_eq_getElem?_getD, List.getElem?_map, List.getElem?_range hi]
  rfl

/-- The game used in the C3 counterexample (and the C8 scenario): two
players, 100 chips each, dealer id fixed at 0. -/
def gCfg : IndianPokerGame :=
  IndianPokerGame.configure (IndianPokerGame.new true 2 100) 2 100 (some 0)

/-- C3 counterexample: two `init_game` runs on games differing **only in seat
1's dealt card** (decks `[SA, HT]` versus `[SA, HK]`; seat 1, the acting seat
returned by `init_game`, is dealt the second card).  Seat 1's `rival_cards`
view is identical in the two runs — it hides the seat's own card — but the
state mappings differ, because the `'hand'` key of the state contains seat
1's own card.  This refutes the claim that no key of seat `i`'s state reveals
seat `i`'s own card. -/
theorem state_reveals_own_card_counterexample :
    ((IndianPokerGame.init_game gCfg [⟨'S', 'A'⟩, ⟨'H', 'T'⟩] 0).toOption.map
        (fun o => o.2.2)) = some 1 ∧
    ((IndianPokerGame.init_game gCfg [⟨'S', 'A'⟩, ⟨'H', 'K'⟩] 0).toOption.map
        (fun o => o.2.2)) = some 1 ∧
    ((IndianPokerGame.init_game gCfg [⟨'S', 'A'⟩, ⟨'H', 'T'⟩] 0).toOption.map
        (fun o => o.2.1.rival_cards))
      = ((IndianPokerGame.init_game gCfg [⟨'S', 'A'⟩, ⟨'H', 'K'⟩] 0).toOption.map
        (fun o => o.2.1.rival_cards)) ∧
    ((IndianPokerGame.init_game gCfg [⟨'S', 'A'⟩, ⟨'H', 'T'⟩] 0).toOption.map
        (fun o => o.2.1.hand))
      ≠ ((IndianPokerGame.init_game gCfg [⟨'S', 'A'⟩, ⟨'H', 'K'⟩] 0).toOption.map
        (fun o => o.2.1.hand)) ∧
    ((IndianPokerGame.init_game gCfg [⟨'S', 'A'⟩, ⟨'H', 'T'⟩] 0).toOption.map
        (fun o => o.2.1))
      ≠ ((IndianPokerGame.init_game gCfg [⟨'S', 'A'⟩, ⟨'H', 'K'⟩] 0).toOption.map
        (fun o => o.2.1)) := by
  refine ⟨by decide, by decide, by decide, by decide, by decide⟩

/-- C3 (amended): for every initialized game whose `rival_cards` view was
built by `init_game`/`continue_game` from the player list, the state mapping
returned to seat `i` has `rival_cards` equal to `None` at index `i` and the
other seats' card index strings at the other indices — but the mapping also
contains seat `i`'s own card under its `'hand'` key, so seat `i`'s state does
depend on seat `i`'s dealt card. -/
theorem state_rival_cards_hide_own_but_hand_leaks (sb bb ra : ℚ)
    (ic : List ℚ) (n did : ℕ) (d : Dealer) (j : Option Judger)
    (ps : List IndianPokerPlayer) (gp : ℕ) (rnd : Round) (rc : ℕ)
    (h : List HistEntry) (asb : Option Bool) (i : ℕ) (hi : i < n)
    (hlen : ps.length = n) :
    ∃ st,
      (IndianPokerGame.get_state
          (running sb bb ra ic n did d j ps
            (IndianPokerGame.rivalCardsOf ps n) gp rnd rc h asb) i).2
        = some st ∧
      st.rival_cards.getD i (some []) = none ∧
      (∀ jx, jx < ps.length → jx ≠ i →
        st.rival_cards.getD jx none
          = some ((ps.getD jx default).hand.map Card.get_index)) ∧
      st.hand = (ps.getD i default).hand.map Card.get_index := by
  refine ⟨_, rfl, ?_, ?_, rfl⟩
  · show ((IndianPokerGame.rivalCardsOf ps n).getD i []).getD i (some []) = none
    unfold IndianPokerGame.rivalCardsOf
    rw [getD_range_map _ _ _ _ hi, getD_range_map _ _ _ _ (hlen ▸ hi)]
    rw [if_pos rfl]
  · intro jx hjx hne
    show ((IndianPokerGame.rivalCardsOf ps n).getD i []).getD jx none
      = some ((ps.getD jx default).hand.map Card.get_index)
    unfold IndianPokerGame.rivalCardsOf
    rw [getD_range_map _ _ _ _ hi, getD_range_map _ _ _ _ hjx]
    rw [if_neg (fun hc => hne hc.symm)]

/-- Witness for the amended C3 at a concrete input: seat 0 of the
post-`init_game` game. -/
theorem state_rival_cards_hide_own_but_hand_leaks_witness :
    ∃ st,
      (IndianPokerGame.get_state
          (running 1 2 2 [100, 100] 2 0 ⟨[], 3⟩ (some ()) psInit
            (IndianPokerGame.rivalCardsOf psInit 2) 1 rndInit 0 []
            (some true)) 0).2
        = some st ∧
      st.rival_cards.getD 0 (some []) = none ∧
      (∀ jx, jx < psInit.length → jx ≠ 0 →
        st.rival_cards.getD jx none
          = some ((psInit.getD jx default).hand.map Card.get_index)) ∧
      st.hand = (psInit.getD 0 default).hand.map Card.get_index :=
  state_rival_cards_hide_own_but_hand_leaks 1 2 2 [100, 100] 2 0 ⟨[], 3⟩
    (some ()) psInit 1 rndInit 0 [] (some true) 0 (by norm_num) (by decide)

end IndianPoker

